import Mathlib

/-!
Verification of the AI-Finance-Platform server actions.

Shallow embedding of `actions/transaction.js` (createTransaction,
updateTransaction, calculateNextRecurringDate, scanReceipt) and
`lib/checkUser.js` (checkUser).  Monetary amounts and balances are
modelled as rationals (the JS code works on decimal amounts via
Prisma Decimal / JS numbers); dates as calendar triples with the
ECMAScript `setMonth` / `setFullYear` overflow normalization.
-/

/- ================= Calendar dates (ECMAScript semantics) ================ -/

/-- A calendar date; `month` is 0-based, exactly as in the ECMAScript
`Date` API (`0` = January, `11` = December). -/
structure SDate where
  year : Nat
  month : Nat
  day : Nat
deriving DecidableEq, Repr

/-- Gregorian leap-year rule, as implemented by ECMAScript `Date`. -/
def isLeap (y : Nat) : Bool :=
  (y % 4 == 0 && y % 100 != 0) || y % 400 == 0

/-- Number of days of the (0-based) month `m` of year `y`. -/
def daysInMonth (y m : Nat) : Nat :=
  match m with
  | 1 => if isLeap y then 29 else 28
  | 3 => 30
  | 5 => 30
  | 8 => 30
  | 10 => 30
  | _ => 31

/-- ECMAScript day-overflow normalization: a day count exceeding the
length of the month rolls into the following month.  For dates coming
from valid ECMAScript dates (`day ≤ 31`) a single carry suffices. -/
def rollDay (y m d : Nat) : SDate :=
  if d ≤ daysInMonth y m then ⟨y, m, d⟩
  else
    let d1 := d - daysInMonth y m
    if m = 11 then ⟨y + 1, 0, d1⟩ else ⟨y, m + 1, d1⟩

/-- `d.setMonth(d.getMonth() + 1)` from the source: move to the next
month keeping the day count, with ECMAScript overflow (Jan 31 becomes
Mar 3 in a non-leap year, not Feb 28). -/
def jsAddOneMonth (dt : SDate) : SDate :=
  if dt.month = 11 then rollDay (dt.year + 1) 0 dt.day
  else rollDay dt.year (dt.month + 1) dt.day

/-- `d.setFullYear(d.getFullYear() + 1)` from the source: same calendar
position one year later, with ECMAScript overflow (Feb 29 becomes
Mar 1 in a non-leap target year). -/
def jsAddOneYear (dt : SDate) : SDate :=
  rollDay (dt.year + 1) dt.month dt.day

/-- Strict chronological order on dates. -/
def SDate.before (a b : SDate) : Bool :=
  a.year < b.year ||
    (a.year == b.year &&
      (a.month < b.month || (a.month == b.month && a.day < b.day)))

/- ======================= Transaction domain ======================= -/

inductive TxType where
  | INCOME
  | EXPENSE
deriving DecidableEq, Repr

inductive RecInterval where
  | DAILY
  | WEEKLY
  | MONTHLY
  | YEARLY
deriving DecidableEq, Repr

/-- `calculateNextRecurringDate` from `actions/transaction.js`: the
`switch` handles only `"MONTHLY"` and `"YEARLY"`; every other interval
falls into `default: break`, returning the date unchanged. -/
def calculateNextRecurringDate (date : SDate) (interval : RecInterval) : SDate :=
  match interval with
  | .MONTHLY => jsAddOneMonth date
  | .YEARLY => jsAddOneYear date
  | _ => date

/-- The payload of a create/update call.  Scalar fields that never
influence control flow or balances (description, category, status, …)
are omitted. -/
structure TxData where
  accountId : Nat
  type : TxType
  amount : ℚ
  date : SDate
  isRecurring : Bool
  recurringInterval : Option RecInterval
deriving DecidableEq, Repr

/-- A stored `Transaction` row. -/
structure Transaction where
  id : Nat
  userId : Nat
  accountId : Nat
  type : TxType
  amount : ℚ
  date : SDate
  isRecurring : Bool
  recurringInterval : Option RecInterval
  nextRecurringDate : Option SDate
deriving DecidableEq, Repr

/-- A stored `Account` row. -/
structure Account where
  id : Nat
  userId : Nat
  balance : ℚ
deriving DecidableEq, Repr

/-- A stored `User` row, as looked up by `createTransaction` and
`updateTransaction` (`db.user.findUnique({ where: { clerkUserId } })`). -/
structure DbUser where
  id : Nat
  clerkUserId : String
deriving DecidableEq, Repr

/-- The database state touched by the transaction actions.  `nextId`
models Prisma's fresh-id generation for created rows. -/
structure Store where
  users : List DbUser
  accounts : List Account
  transactions : List Transaction
  nextId : Nat
deriving DecidableEq, Repr

def findUserByClerkId (st : Store) (cid : String) : Option DbUser :=
  st.users.find? (fun u => u.clerkUserId == cid)

/-- `db.account.findUnique({ where: { id: data.accountId, userId: user.id } })`. -/
def findAccount (st : Store) (accId uid : Nat) : Option Account :=
  st.accounts.find? (fun a => a.id == accId && a.userId == uid)

/-- `db.transaction.findUnique({ where: { id, userId: user.id } })`. -/
def findTransaction (st : Store) (txId uid : Nat) : Option Transaction :=
  st.transactions.find? (fun t => t.id == txId && t.userId == uid)

/-- `tx.account.update({ where: { id }, data: { balance: newBalance } })`:
set the balance of the account(s) with the given id. -/
def setBalanceList (l : List Account) (accId : Nat) (nb : ℚ) : List Account :=
  l.map (fun a => if a.id == accId then { a with balance := nb } else a)

/-- `tx.account.update({ where: { id }, data: { balance: { increment: net } } })`. -/
def incBalanceList (l : List Account) (accId : Nat) (net : ℚ) : List Account :=
  l.map (fun a => if a.id == accId then { a with balance := a.balance + net } else a)

/-- Balance of the account with the given id, if any. -/
def accountBalance (st : Store) (accId : Nat) : Option ℚ :=
  (st.accounts.find? (fun a => a.id == accId)).map (fun a => a.balance)

/-- The `nextRecurringDate` value computed inside both writes:
`data.isRecurring && data.recurringInterval ? calculateNextRecurringDate(...) : null`. -/
def nextRecurringOf (data : TxData) : Option SDate :=
  match data.isRecurring, data.recurringInterval with
  | true, some i => some (calculateNextRecurringDate data.date i)
  | _, _ => none

/-- `createTransaction` from `actions/transaction.js`.  `auth` is the
Clerk user id reported by `auth()`; `denied` and `isRateLimit` are the
Arcjet decision.  Every `throw` of the source is an `Except.error`
carrying the thrown message, paired with the (unchanged) store; on the
success path the `db.$transaction` block inserts the row and sets the
account balance in one step. -/
def createTransaction (auth : Option String) (denied isRateLimit : Bool)
    (data : TxData) (st : Store) : Except String Transaction × Store :=
  match auth with
  | none => (.error "Unauthorized", st)
  | some userId =>
    if denied then
      if isRateLimit then (.error "Too many requests. Please try again later.", st)
      else (.error "Request blocked", st)
    else
      match findUserByClerkId st userId with
      | none => (.error "User not found", st)
      | some user =>
        match findAccount st data.accountId user.id with
        | none => (.error "Account not found", st)
        | some account =>
          let balanceChange : ℚ :=
            match data.type with
            | .EXPENSE => -data.amount
            | _ => data.amount
          let newBalance := account.balance + balanceChange
          let newTx : Transaction :=
            { id := st.nextId
              userId := user.id
              accountId := data.accountId
              type := data.type
              amount := data.amount
              date := data.date
              isRecurring := data.isRecurring
              recurringInterval := data.recurringInterval
              nextRecurringDate := nextRecurringOf data }
          let st2 : Store :=
            { st with
              transactions := st.transactions ++ [newTx]
              accounts := setBalanceList st.accounts data.accountId newBalance
              nextId := st.nextId + 1 }
          (.ok newTx, st2)

/-- `updateTransaction` from `actions/transaction.js`: looks up the
original row, computes `netChange = newChange - oldChange`, then in one
`db.$transaction` block rewrites the row and increments the balance of
the account `data.accountId` by `netChange`. -/
def updateTransaction (auth : Option String) (txId : Nat)
    (data : TxData) (st : Store) : Except String Transaction × Store :=
  match auth with
  | none => (.error "Unauthorized", st)
  | some userId =>
    match findUserByClerkId st userId with
    | none => (.error "User not found", st)
    | some user =>
      match findTransaction st txId user.id with
      | none => (.error "Transaction not found", st)
      | some original =>
        let oldChange : ℚ :=
          match original.type with
          | .EXPENSE => -original.amount
          | _ => original.amount
        let newChange : ℚ :=
          match data.type with
          | .EXPENSE => -data.amount
          | _ => data.amount
        let netChange := newChange - oldChange
        let updatedTx : Transaction :=
          { original with
            accountId := data.accountId
            type := data.type
            amount := data.amount
            date := data.date
            isRecurring := data.isRecurring
            recurringInterval := data.recurringInterval
            nextRecurringDate := nextRecurringOf data }
        let st2 : Store :=
          { st with
            transactions :=
              st.transactions.map
                (fun t => if t.id == txId && t.userId == user.id then updatedTx else t)
            accounts := incBalanceList st.accounts data.accountId netChange }
        (.ok updatedTx, st2)

/-- The spec's delta rule, written from the spec's own words: the
signed value of a transaction is `amount` for INCOME and `-amount` for
EXPENSE.  Used to compare the code's balance arithmetic against the
spec. -/
def signedSpec (t : TxType) (a : ℚ) : ℚ :=
  match t with
  | .INCOME => a
  | .EXPENSE => -a

/- ==================== Receipt scanning (scanReceipt) ==================== -/

/-- A JSON value of the receipt schema: the model is asked for a flat
object whose fields are strings or numbers, so those (plus `null`) are
the values modelled. -/
inductive JVal where
  | jstr (s : String)
  | jnum (q : ℚ)
  | jnull
deriving DecidableEq, Repr

def jsonQuote : Char := Char.ofNat 34

def lbraceChar : Char := Char.ofNat 123

def rbraceChar : Char := Char.ofNat 125

def skipWs (cs : List Char) : List Char :=
  cs.dropWhile (fun c => c.isWhitespace)

/-- ECMAScript `String.prototype.trim`: drop whitespace from both ends. -/
def trimChars (cs : List Char) : List Char :=
  ((cs.dropWhile (fun c => c.isWhitespace)).reverse.dropWhile
      (fun c => c.isWhitespace)).reverse

def jsTrim (s : String) : String :=
  String.mk (trimChars s.toList)

/-- Split a character list at every occurrence of the separator. -/
def splitChar (sep : Char) : List Char → List (List Char)
  | [] => [[]]
  | c :: rest =>
    if c = sep then [] :: splitChar sep rest
    else
      match splitChar sep rest with
      | [] => [[c]]
      | g :: gs => (c :: g) :: gs

/-- Body of a JSON string after the opening quote, up to the closing
quote.  The receipt fields carry no escape sequences, so escapes are
not modelled. -/
def parseStringBody : List Char → Option (List Char × List Char)
  | [] => none
  | c :: cs =>
    if c = jsonQuote then some ([], cs)
    else
      match parseStringBody cs with
      | none => none
      | some (body, rest) => some (c :: body, rest)

def digitsVal (ds : List Char) : Nat :=
  ds.foldl (fun n c => 10 * n + (c.toNat - 48)) 0

def parseDigits (cs : List Char) : Option (List Char × List Char) :=
  let ds := cs.takeWhile (fun c => c.isDigit)
  if ds.isEmpty then none else some (ds, cs.dropWhile (fun c => c.isDigit))

/-- Syntactic decomposition of a decimal literal: sign, integer
digits, fraction digits (empty when absent), remainder. -/
def parseNumParts (cs : List Char) : Option ((Bool × List Char × List Char) × List Char) :=
  let neg : Bool :=
    match cs with
    | c :: _ => c = '-'
    | [] => false
  let cs1 := if neg then cs.drop 1 else cs
  match parseDigits cs1 with
  | none => none
  | some (ds, cs2) =>
    match cs2 with
    | '.' :: cs3 =>
      match parseDigits cs3 with
      | none => none
      | some (fs, cs4) => some ((neg, ds, fs), cs4)
    | _ => some ((neg, ds, []), cs2)

/-- Rational value of a decomposed decimal literal. -/
def numValue (neg : Bool) (ds fs : List Char) : ℚ :=
  let q : ℚ := (digitsVal ds : ℚ) + (digitsVal fs : ℚ) / ((10 : ℚ) ^ fs.length)
  if neg then -q else q

/-- A JSON number (optional minus sign, digits, optional fraction). -/
def parseNumberJ (cs : List Char) : Option (ℚ × List Char) :=
  (parseNumParts cs).map (fun p => (numValue p.1.1 p.1.2.1 p.1.2.2, p.2))

def parseValue (cs : List Char) : Option (JVal × List Char) :=
  match cs with
  | [] => none
  | c :: rest =>
    if c = jsonQuote then
      match parseStringBody rest with
      | none => none
      | some (body, rest2) => some (.jstr (String.mk body), rest2)
    else if c = '-' || c.isDigit then
      match parseNumberJ cs with
      | none => none
      | some (q, rest2) => some (.jnum q, rest2)
    else if "null".toList.isPrefixOf cs then some (.jnull, cs.drop 4)
    else none

/-- The comma-separated members of a JSON object.  `fuel` bounds the
recursion; `jsonParse` passes the input length, which suffices because
every member consumes at least one character. -/
def parseMembers : Nat → List Char → Option (List (String × JVal) × List Char)
  | 0, _ => none
  | fuel + 1, cs =>
    match skipWs cs with
    | [] => none
    | c :: rest =>
      if c = jsonQuote then
        match parseStringBody rest with
        | none => none
        | some (key, cs2) =>
          match skipWs cs2 with
          | [] => none
          | c2 :: cs4 =>
            if c2 = ':' then
              match parseValue (skipWs cs4) with
              | none => none
              | some (v, cs5) =>
                match skipWs cs5 with
                | [] => some ([(String.mk key, v)], [])
                | c3 :: cs7 =>
                  if c3 = ',' then
                    match parseMembers fuel cs7 with
                    | none => none
                    | some (ms, rest2) => some ((String.mk key, v) :: ms, rest2)
                  else some ([(String.mk key, v)], c3 :: cs7)
            else none
      else none

/-- `JSON.parse`, restricted to the shape the receipt prompt demands: a
single flat object with string / number / null fields.  `none` models a
thrown `SyntaxError`. -/
def jsonParse (s : String) : Option (List (String × JVal)) :=
  match skipWs s.toList with
  | [] => none
  | c :: rest =>
    if c = lbraceChar then
      let cs1 := skipWs rest
      match cs1 with
      | [] => none
      | c2 :: rest2 =>
        if c2 = rbraceChar then
          if (skipWs rest2).isEmpty then some [] else none
        else
          match parseMembers cs1.length cs1 with
          | none => none
          | some (ms, cs2) =>
            match skipWs cs2 with
            | [] => none
            | c3 :: rest3 =>
              if c3 = rbraceChar && (skipWs rest3).isEmpty then some ms else none
    else none

/-- `.replace(/```(?:json)?/g, "")` from the source: delete every
occurrence of three backticks, optionally followed by `json`. -/
def stripFencesGo : Nat → List Char → List Char
  | 0, cs => cs
  | _ + 1, [] => []
  | fuel + 1, c :: cs =>
    if "```json".toList.isPrefixOf (c :: cs) then stripFencesGo fuel ((c :: cs).drop 7)
    else if "```".toList.isPrefixOf (c :: cs) then stripFencesGo fuel ((c :: cs).drop 3)
    else c :: stripFencesGo fuel cs

/-- `result.response.text().replace(/```(?:json)?/g, "").trim()`. -/
def cleanRaw (s : String) : String :=
  String.mk (trimChars (stripFencesGo s.length s.toList))

def lookupJ (obj : List (String × JVal)) (k : String) : Option JVal :=
  (obj.find? (fun p => p.1 == k)).map (fun p => p.2)

/-- ECMAScript `Number(string)` coercion on the strings the adapter
meets: trimmed-empty gives `0`, a decimal literal gives its value, and
anything else is NaN, modelled as `none`. -/
def strToNumberJs (s : String) : Option ℚ :=
  let t := trimChars s.toList
  if t.isEmpty then some 0
  else
    match parseNumberJ t with
    | some (q, rest) => if rest.isEmpty then some q else none
    | none => none

/-- `Number(parsed.amount)`: `none` on the left is the absent field
(`Number(undefined)` is NaN, `none` on the right). -/
def jsNumber (v : Option JVal) : Option ℚ :=
  match v with
  | none => none
  | some .jnull => some 0
  | some (.jnum q) => some q
  | some (.jstr s) => strToNumberJs s

/-- `new Date("YYYY-MM-DD")`: an in-range ISO calendar date parses,
anything else is an invalid date (`none`).  The month is stored 0-based
to match `SDate`. -/
def parseDateStr (s : String) : Option SDate :=
  match splitChar '-' s.toList with
  | [ys, ms, ds] =>
    if !ys.isEmpty && !ms.isEmpty && !ds.isEmpty
        && ys.all (fun c => c.isDigit) && ms.all (fun c => c.isDigit)
        && ds.all (fun c => c.isDigit) then
      let y := digitsVal ys
      let m := digitsVal ms
      let d := digitsVal ds
      if 1 ≤ m && m ≤ 12 && 1 ≤ d && d ≤ daysInMonth y (m - 1) then
        some ⟨y, m - 1, d⟩
      else none
    else none
  | _ => none

/-- `parsed.date ? new Date(parsed.date) : null`: absent, `null` and
`""` are falsy and give `null`; a string is parsed.  Numeric timestamp
dates lie outside the calendar model and are collapsed to `none`. -/
def jsDateField (v : Option JVal) : Option SDate :=
  match v with
  | none => none
  | some .jnull => none
  | some (.jstr s) => if s = "" then none else parseDateStr s
  | some (.jnum _) => none

/-- The `??` operator: the default applies exactly when the field is
absent (`undefined`) or `null`. -/
def nullishDefault (v : Option JVal) (dflt : JVal) : JVal :=
  match v with
  | none => dflt
  | some .jnull => dflt
  | some w => w

/-- The record `scanReceipt` builds from a parsed response.  `amount`
is `none` when the coercion yields NaN. -/
structure ScanReceiptResult where
  amount : Option ℚ
  date : Option SDate
  description : JVal
  merchantName : JVal
  category : JVal
deriving DecidableEq, Repr

/-- The normalization block of `scanReceipt` (its `return {...}`). -/
def normalizeReceipt (obj : List (String × JVal)) : ScanReceiptResult :=
  { amount := jsNumber (lookupJ obj "amount")
    date := jsDateField (lookupJ obj "date")
    description := nullishDefault (lookupJ obj "description") (.jstr "")
    merchantName := nullishDefault (lookupJ obj "merchantName") (.jstr "")
    category := nullishDefault (lookupJ obj "category") (.jstr "other-expense") }

inductive ScanOut where
  | empty
  | result (r : ScanReceiptResult)
  | failure (msg : String)
deriving DecidableEq, Repr

/-- One run of `scanReceipt`: whether the Gemini model was consulted,
and the outcome. -/
structure ScanRun where
  modelCalled : Bool
  out : ScanOut
deriving DecidableEq, Repr

/-- The uploaded image; only its byte size matters to the claims. -/
structure ScanFile where
  size : Nat
deriving DecidableEq, Repr

/-- `scanReceipt` from `actions/transaction.js`.  The source reads the
file, base64-encodes it and calls the model unconditionally — no branch
inspects `file.size`, so `modelCalled` is `true` on every path.  The
raw model text is fence-stripped and trimmed; empty text and the
literal empty object return the empty result; `JSON.parse` failure is
caught by the surrounding try/catch, which rethrows
"Failed to scan receipt". -/
def scanReceipt (file : ScanFile) (modelResponse : String) : ScanRun :=
  let _sizeBytes := file.size
  let raw := cleanRaw modelResponse
  if raw = "" ∨ raw = "\x7b\x7d" then ⟨true, .empty⟩
  else
    match jsonParse raw with
    | none => ⟨true, .failure "Failed to scan receipt"⟩
    | some obj => ⟨true, .result (normalizeReceipt obj)⟩

/- ======================== checkUser (lib/checkUser.js) ======================== -/

structure ClerkEmail where
  emailAddress : String
deriving DecidableEq, Repr

/-- The identity-provider record returned by `currentUser()`. -/
structure ClerkUser where
  id : String
  firstName : Option String
  lastName : Option String
  imageUrl : String
  emailAddresses : List ClerkEmail
deriving DecidableEq, Repr

/-- A stored `User` row as written by `checkUser`. -/
structure UserRow where
  clerkUserId : String
  email : String
  name : String
  imageUrl : String
deriving DecidableEq, Repr

/-- `db.user.upsert({ where: { email }, update, create })`: when a row
with the email exists it is updated in place, otherwise the `create`
payload is appended. -/
def upsertUserByEmail (rows : List UserRow) (email : String)
    (upd : UserRow → UserRow) (newRow : UserRow) : List UserRow :=
  if rows.any (fun r => r.email == email) then
    rows.map (fun r => if r.email == email then upd r else r)
  else rows ++ [newRow]

/-- `checkUser` from `lib/checkUser.js`.  `cu` is the `currentUser()`
result; the store is the list of `User` rows.  Reading
`user.emailAddresses[0].emailAddress` on an email-less user would throw
a TypeError, modelled as an error. -/
def checkUser (cu : Option ClerkUser) (rows : List UserRow) :
    Except String (Option UserRow × List UserRow) :=
  match cu with
  | none => .ok (none, rows)
  | some user =>
    match user.emailAddresses.head? with
    | none => .error "TypeError"
    | some e0 =>
      let email := e0.emailAddress
      let name := jsTrim ((user.firstName.getD "") ++ " " ++ (user.lastName.getD ""))
      let updRow := fun (r : UserRow) =>
        { r with clerkUserId := user.id, name := name, imageUrl := user.imageUrl }
      let newRow : UserRow :=
        { clerkUserId := user.id, email := email, name := name, imageUrl := user.imageUrl }
      let rows2 := upsertUserByEmail rows email updRow newRow
      .ok (rows2.find? (fun r => r.email == email), rows2)

/-- Number of stored `User` rows carrying the given email. -/
def countEmail (rows : List UserRow) (email : String) : Nat :=
  rows.countP (fun r => r.email == email)


/- ==================== Decidability and projections ==================== -/

instance {e a : Type} [DecidableEq e] [DecidableEq a] : DecidableEq (Except e a) := fun x y =>
  match x, y with
  | .error v, .error w =>
    if h : v = w then .isTrue (by rw [h]) else .isFalse (by intro hc; injection hc; contradiction)
  | .error _, .ok _ => .isFalse (by intro hc; exact Except.noConfusion hc)
  | .ok _, .error _ => .isFalse (by intro hc; exact Except.noConfusion hc)
  | .ok v, .ok w =>
    if h : v = w then .isTrue (by rw [h]) else .isFalse (by intro hc; injection hc; contradiction)

/-- The category field of a successful scan outcome. -/
def ScanOut.resultCategory : ScanOut → Option JVal
  | .result r => some r.category
  | _ => none

/-- The date field of a successful scan outcome. -/
def ScanOut.resultDate : ScanOut → Option (Option SDate)
  | .result r => some r.date
  | _ => none

/-- The amount field of a successful scan outcome. -/
def ScanOut.resultAmount : ScanOut → Option (Option ℚ)
  | .result r => some r.amount
  | _ => none

/- ======================== Concrete demo data ======================== -/

def demoUser : DbUser := ⟨1, "clerk1"⟩

def demoAccount : Account := ⟨10, 1, 500⟩

/-- A store holding one user and one account with balance 500.00. -/
def demoStore : Store := ⟨[demoUser], [demoAccount], [], 100⟩

def demoDataExpense50 : TxData := ⟨10, .EXPENSE, 50, ⟨2024, 0, 15⟩, false, none⟩

def demoDataIncome50 : TxData := ⟨10, .INCOME, 50, ⟨2024, 0, 16⟩, false, none⟩

def demoDataSameExpense50 : TxData := ⟨10, .EXPENSE, 50, ⟨2024, 0, 17⟩, false, none⟩

def demoDataNegative : TxData := ⟨10, .EXPENSE, -50, ⟨2024, 0, 15⟩, false, none⟩

def demoDataDaily : TxData := ⟨10, .EXPENSE, 50, ⟨2024, 0, 15⟩, true, some .DAILY⟩

def demoTx0 : Transaction := ⟨100, 1, 10, .EXPENSE, 50, ⟨2024, 0, 15⟩, false, none, none⟩

/-- `demoStore` after creating the 50.00 EXPENSE: balance 450.00. -/
def demoStore1 : Store := ⟨[demoUser], [⟨10, 1, 450⟩], [demoTx0], 101⟩

def demoTx1 : Transaction := ⟨100, 1, 10, .INCOME, 50, ⟨2024, 0, 16⟩, false, none, none⟩

/-- `demoStore1` after updating the transaction to a 50.00 INCOME: balance 550.00. -/
def demoStore2 : Store := ⟨[demoUser], [⟨10, 1, 550⟩], [demoTx1], 101⟩

def demoTx2 : Transaction := ⟨100, 1, 10, .EXPENSE, 50, ⟨2024, 0, 17⟩, false, none, none⟩

def demoStore3 : Store := ⟨[demoUser], [⟨10, 1, 450⟩], [demoTx2], 101⟩

def demoTxNeg : Transaction := ⟨100, 1, 10, .EXPENSE, -50, ⟨2024, 0, 15⟩, false, none, none⟩

/-- `demoStore` after the (accepted) negative-amount EXPENSE: the
balance moved from 500 to 550. -/
def demoStoreNeg : Store := ⟨[demoUser], [⟨10, 1, 550⟩], [demoTxNeg], 101⟩

def demoTxDaily : Transaction :=
  ⟨100, 1, 10, .EXPENSE, 50, ⟨2024, 0, 15⟩, true, some .DAILY, some ⟨2024, 0, 15⟩⟩

def rawReceiptJson : String :=
  "\x7b\"amount\":\"12.50\",\"date\":\"2024-01-15\",\"category\":\"zzz\"\x7d"

def rawReceiptNeg : String := "\x7b\"amount\":-5\x7d"

/-- The object `JSON.parse` yields on `rawReceiptJson`. -/
def demoReceiptObj : List (String × JVal) :=
  [("amount", JVal.jstr "12.50"), ("date", JVal.jstr "2024-01-15"),
    ("category", JVal.jstr "zzz")]

def demoClerk : ClerkUser := ⟨"clerk1", some "Ada", some "L", "img", [⟨"a@b.c"⟩]⟩

def demoRow : UserRow := ⟨"clerk1", "a@b.c", "Ada L", "img"⟩

/- ======================== Helper lemmas ======================== -/

theorem find?_setBalanceList (l : List Account) (accId : Nat) (nb : ℚ) :
    (setBalanceList l accId nb).find? (fun a => a.id == accId)
      = (l.find? (fun a => a.id == accId)).map (fun a => { a with balance := nb }) := by
  induction l with
  | nil => rfl
  | cons a l ih =>
    cases hid : (a.id == accId) with
    | true =>
      simp only [setBalanceList, List.map_cons, List.find?, hid, if_true]
      simp [List.find?, hid]
    | false =>
      simp only [setBalanceList, List.map_cons, List.find?, hid, if_false]
      simpa [List.find?, hid, setBalanceList] using ih

theorem find?_incBalanceList (l : List Account) (accId : Nat) (net : ℚ) :
    (incBalanceList l accId net).find? (fun a => a.id == accId)
      = (l.find? (fun a => a.id == accId)).map (fun a => { a with balance := a.balance + net }) := by
  induction l with
  | nil => rfl
  | cons a l ih =>
    cases hid : (a.id == accId) with
    | true =>
      simp only [incBalanceList, List.map_cons, List.find?, hid, if_true]
      simp [List.find?, hid]
    | false =>
      simp only [incBalanceList, List.map_cons, List.find?, hid, if_false]
      simpa [List.find?, hid, incBalanceList] using ih

theorem incBalanceList_zero (l : List Account) (accId : Nat) :
    incBalanceList l accId 0 = l := by
  induction l with
  | nil => rfl
  | cons a l ih =>
    cases hid : (a.id == accId) with
    | true => simp [incBalanceList, hid] at ih ⊢
    | false => simp [incBalanceList, hid] at ih ⊢

/-- With pairwise-distinct account ids (Prisma's `@id`), the account
found by `{ id, userId }` is the account found by `id` alone. -/
theorem findAccount_eq_find?_id (st : Store) (accId uid : Nat) (acct : Account)
    (hnodup : (st.accounts.map Account.id).Nodup)
    (h : findAccount st accId uid = some acct) :
    st.accounts.find? (fun a => a.id == accId) = some acct := by
  have hmem : acct ∈ st.accounts := List.mem_of_find?_eq_some h
  have hpred := List.find?_some h
  have hid : acct.id = accId := by
    simp only [Bool.and_eq_true, beq_iff_eq] at hpred
    exact hpred.1
  cases hfind : st.accounts.find? (fun a => a.id == accId) with
  | none =>
    exfalso
    have := List.find?_eq_none.mp hfind acct hmem
    simp [hid] at this
  | some a2 =>
    have hmem2 : a2 ∈ st.accounts := List.mem_of_find?_eq_some hfind
    have hpred2 := List.find?_some hfind
    have hid2 : a2.id = accId := by simpa using hpred2
    have heq : a2 = acct :=
      List.inj_on_of_nodup_map hnodup hmem2 hmem (by rw [hid2, hid])
    rw [heq]

theorem countEmail_upsert (rows : List UserRow) (email : String)
    (upd : UserRow → UserRow) (newRow : UserRow)
    (hupd : ∀ r, (upd r).email = r.email) (hnew : newRow.email = email) :
    countEmail (upsertUserByEmail rows email upd newRow) email
      = max 1 (countEmail rows email) := by
  unfold upsertUserByEmail
  by_cases hany : rows.any (fun r => r.email == email)
  · rw [if_pos hany]
    have hcount :
        countEmail (rows.map (fun r => if r.email == email then upd r else r)) email
          = countEmail rows email := by
      unfold countEmail
      rw [List.countP_map]
      apply List.countP_congr
      intro r _
      by_cases hr : r.email = email
      · simp [hr, hupd]
      · simp [hr]
    rw [hcount]
    have hpos : 0 < countEmail rows email := by
      rcases List.any_eq_true.mp hany with ⟨r, hrmem, hr⟩
      exact List.countP_pos_iff.mpr ⟨r, hrmem, hr⟩
    omega
  · rw [if_neg hany]
    have hzero : countEmail rows email = 0 := by
      unfold countEmail
      rw [List.countP_eq_zero]
      intro r hrmem
      intro hr
      exact hany (List.any_eq_true.mpr ⟨r, hrmem, hr⟩)
    unfold countEmail at hzero ⊢
    rw [List.countP_append, hzero]
    simp [hnew]

/- ======================== Claim theorems ======================== -/

/-- C1: on every successful `createTransaction`, the referenced
account's new balance is its old balance `b` plus the signed value of
the new transaction — `amount` for INCOME, `-amount` for EXPENSE. -/
theorem createTransaction_balance_delta
    (auth : Option String) (denied isRateLimit : Bool) (data : TxData) (st : Store)
    (tx : Transaction) (st2 : Store) (b : ℚ)
    (hnodup : (st.accounts.map Account.id).Nodup)
    (h : createTransaction auth denied isRateLimit data st = (.ok tx, st2))
    (hb : accountBalance st data.accountId = some b) :
    accountBalance st2 data.accountId = some (b + signedSpec data.type data.amount) := by
  cases auth with
  | none => simp [createTransaction] at h
  | some userId =>
    simp only [createTransaction] at h
    by_cases hd : denied
    · rw [if_pos hd] at h
      by_cases hrl : isRateLimit
      · rw [if_pos hrl] at h; simp at h
      · rw [if_neg hrl] at h; simp at h
    · rw [if_neg hd] at h
      cases hu : findUserByClerkId st userId with
      | none => simp only [hu] at h; simp at h
      | some user =>
        simp only [hu] at h
        cases ha : findAccount st data.accountId user.id with
        | none => simp only [ha] at h; simp at h
        | some account =>
          simp only [ha] at h
          simp only [Prod.mk.injEq, Except.ok.injEq] at h
          obtain ⟨htx, hst⟩ := h
          subst hst
          have hfid : st.accounts.find? (fun a => a.id == data.accountId) = some account :=
            findAccount_eq_find?_id st data.accountId user.id account hnodup ha
          unfold accountBalance at hb ⊢
          simp only [find?_setBalanceList, hfid, Option.map_some']
          rw [hfid] at hb
          simp only [Option.map_some'] at hb
          have hbal : account.balance = b := Option.some.inj hb
          rw [hbal]
          cases data.type <;> simp [signedSpec]

/-- C1 witness: creating a 50.00 EXPENSE on the demo account with
balance 500.00 leaves the balance at 500 + signed(EXPENSE, 50). -/
theorem createTransaction_balance_delta_witness :
    accountBalance demoStore1 10 = some (500 + signedSpec TxType.EXPENSE 50)
    ∧ accountBalance demoStore 10 = some 500 := by
  have h : createTransaction (some "clerk1") false false demoDataExpense50 demoStore
      = (Except.ok demoTx0, demoStore1) := by
    norm_num [createTransaction, demoStore, demoTx0, demoStore1, demoUser, demoAccount,
      demoDataExpense50, findUserByClerkId, findAccount, setBalanceList, nextRecurringOf]
  have hb : accountBalance demoStore 10 = some 500 := by
    norm_num [accountBalance, demoStore, demoAccount]
  exact ⟨createTransaction_balance_delta (some "clerk1") false false demoDataExpense50
      demoStore demoTx0 demoStore1 500 (by decide) h hb, hb⟩

/-- C2: on every successful `updateTransaction`, the balance of the
account referenced by the update changes by exactly
`netChange = signed(new) - signed(old)`; concretely, creating a 50.00
EXPENSE on a 500.00 account leaves 450.00, and updating that
transaction to a 50.00 INCOME leaves 550.00. -/
theorem updateTransaction_balance_delta
    (cid : String) (txId : Nat) (data : TxData) (st : Store)
    (user : DbUser) (orig : Transaction) (tx : Transaction) (st2 : Store) (b : ℚ)
    (hu : findUserByClerkId st cid = some user)
    (ho : findTransaction st txId user.id = some orig)
    (h : updateTransaction (some cid) txId data st = (.ok tx, st2))
    (hb : accountBalance st data.accountId = some b) :
    accountBalance st2 data.accountId
      = some (b + (signedSpec data.type data.amount - signedSpec orig.type orig.amount))
    ∧ accountBalance
        (createTransaction (some "clerk1") false false demoDataExpense50 demoStore).2 10
      = some 450
    ∧ accountBalance
        (updateTransaction (some "clerk1") 100 demoDataIncome50
          (createTransaction (some "clerk1") false false demoDataExpense50 demoStore).2).2 10
      = some 550 := by
  have hc : createTransaction (some "clerk1") false false demoDataExpense50 demoStore
      = (Except.ok demoTx0, demoStore1) := by
    norm_num [createTransaction, demoStore, demoTx0, demoStore1, demoUser, demoAccount,
      demoDataExpense50, findUserByClerkId, findAccount, setBalanceList, nextRecurringOf]
  have hup : updateTransaction (some "clerk1") 100 demoDataIncome50 demoStore1
      = (Except.ok demoTx1, demoStore2) := by
    norm_num [updateTransaction, findUserByClerkId, findTransaction, incBalanceList,
      nextRecurringOf, demoStore1, demoStore2, demoTx0, demoTx1, demoUser, demoDataIncome50]
  refine ⟨?_, ?_, ?_⟩
  · simp only [updateTransaction, hu, ho] at h
    simp only [Prod.mk.injEq, Except.ok.injEq] at h
    obtain ⟨htx, hst⟩ := h
    subst hst
    unfold accountBalance at hb ⊢
    simp only [find?_incBalanceList]
    cases hf : st.accounts.find? (fun a => a.id == data.accountId) with
    | none => rw [hf] at hb; simp at hb
    | some a0 =>
      rw [hf] at hb
      simp only [Option.map_some'] at hb ⊢
      have hbal : a0.balance = b := Option.some.inj hb
      rw [hbal]
      cases data.type <;> cases orig.type <;> simp [signedSpec]
  · rw [hc]
    norm_num [accountBalance, demoStore1]
  · rw [hc, hup]
    norm_num [accountBalance, demoStore2]

/-- C2 witness: the update of the demo EXPENSE to a 50.00 INCOME lands
the balance at 450 + (signed(INCOME,50) - signed(EXPENSE,50)) = 550. -/
theorem updateTransaction_balance_delta_witness :
    accountBalance demoStore2 10
      = some (450 + (signedSpec TxType.INCOME 50 - signedSpec TxType.EXPENSE 50)) := by
  have hup : updateTransaction (some "clerk1") 100 demoDataIncome50 demoStore1
      = (Except.ok demoTx1, demoStore2) := by
    norm_num [updateTransaction, findUserByClerkId, findTransaction, incBalanceList,
      nextRecurringOf, demoStore1, demoStore2, demoTx0, demoTx1, demoUser, demoDataIncome50]
  have hb : accountBalance demoStore1 10 = some 450 := by
    norm_num [accountBalance, demoStore1]
  exact (updateTransaction_balance_delta "clerk1" 100 demoDataIncome50 demoStore1
    demoUser demoTx0 demoTx1 demoStore2 450 rfl rfl hup hb).1

/-- C9: updating a transaction with its stored type and amount leaves
every account balance unchanged (the net change is zero). -/
theorem updateTransaction_same_signed_noop
    (cid : String) (txId : Nat) (data : TxData) (st : Store)
    (user : DbUser) (orig : Transaction) (tx : Transaction) (st2 : Store)
    (hu : findUserByClerkId st cid = some user)
    (ho : findTransaction st txId user.id = some orig)
    (htype : data.type = orig.type) (hamt : data.amount = orig.amount)
    (h : updateTransaction (some cid) txId data st = (.ok tx, st2)) :
    st2.accounts = st.accounts := by
  simp only [updateTransaction, hu, ho] at h
  simp only [Prod.mk.injEq, Except.ok.injEq] at h
  obtain ⟨htx, hst⟩ := h
  subst hst
  show incBalanceList st.accounts data.accountId _ = st.accounts
  rw [htype, hamt, sub_self, incBalanceList_zero]

/-- C9 witness: rewriting the demo EXPENSE with the same type and
amount (only the date differs) leaves the account list untouched. -/
theorem updateTransaction_same_signed_noop_witness :
    demoStore3.accounts = demoStore1.accounts := by
  have h : updateTransaction (some "clerk1") 100 demoDataSameExpense50 demoStore1
      = (Except.ok demoTx2, demoStore3) := by
    norm_num [updateTransaction, findUserByClerkId, findTransaction, incBalanceList,
      nextRecurringOf, demoStore1, demoStore3, demoTx0, demoTx2, demoUser, demoDataSameExpense50]
  exact updateTransaction_same_signed_noop "clerk1" 100 demoDataSameExpense50 demoStore1
    demoUser demoTx0 demoTx2 demoStore3 rfl rfl rfl rfl h

/-- C3 (amended): create and update leave the store untouched on every
error path (unauthorized, rate-limited, blocked, user / account /
transaction not found), and on success the row write and the single
balance write land together; the code performs no amount validation, so
this covers negative amounts as accepted inputs. -/
theorem mutation_atomicity
    (auth : Option String) (denied isRateLimit : Bool) (txId : Nat)
    (data : TxData) (st : Store) :
    (∀ e st2, createTransaction auth denied isRateLimit data st = (.error e, st2) → st2 = st)
    ∧ (∀ tx st2, createTransaction auth denied isRateLimit data st = (.ok tx, st2) →
        st2.transactions = st.transactions ++ [tx]
        ∧ ∃ nb, st2.accounts = setBalanceList st.accounts data.accountId nb)
    ∧ (∀ e st2, updateTransaction auth txId data st = (.error e, st2) → st2 = st)
    ∧ (∀ tx st2, updateTransaction auth txId data st = (.ok tx, st2) →
        (∃ uid, st2.transactions
            = st.transactions.map (fun t => if t.id == txId && t.userId == uid then tx else t))
        ∧ ∃ net, st2.accounts = incBalanceList st.accounts data.accountId net) := by
  refine ⟨?_, ?_, ?_, ?_⟩
  · intro e st2 h
    cases auth with
    | none => exact (congrArg Prod.snd h).symm
    | some userId =>
      simp only [createTransaction] at h
      by_cases hd : denied
      · rw [if_pos hd] at h
        by_cases hrl : isRateLimit
        · rw [if_pos hrl] at h; exact (congrArg Prod.snd h).symm
        · rw [if_neg hrl] at h; exact (congrArg Prod.snd h).symm
      · rw [if_neg hd] at h
        cases hu : findUserByClerkId st userId with
        | none => simp only [hu] at h; exact (congrArg Prod.snd h).symm
        | some user =>
          simp only [hu] at h
          cases ha : findAccount st data.accountId user.id with
          | none => simp only [ha] at h; exact (congrArg Prod.snd h).symm
          | some account =>
            simp only [ha] at h
            exact Except.noConfusion (congrArg Prod.fst h)
  · intro tx st2 h
    cases auth with
    | none => exact Except.noConfusion (congrArg Prod.fst h)
    | some userId =>
      simp only [createTransaction] at h
      by_cases hd : denied
      · rw [if_pos hd] at h
        by_cases hrl : isRateLimit
        · rw [if_pos hrl] at h; exact Except.noConfusion (congrArg Prod.fst h)
        · rw [if_neg hrl] at h; exact Except.noConfusion (congrArg Prod.fst h)
      · rw [if_neg hd] at h
        cases hu : findUserByClerkId st userId with
        | none => simp only [hu] at h; exact Except.noConfusion (congrArg Prod.fst h)
        | some user =>
          simp only [hu] at h
          cases ha : findAccount st data.accountId user.id with
          | none => simp only [ha] at h; exact Except.noConfusion (congrArg Prod.fst h)
          | some account =>
            simp only [ha] at h
            simp only [Prod.mk.injEq, Except.ok.injEq] at h
            obtain ⟨htx, hst⟩ := h
            subst hst
            constructor
            · show st.transactions ++ [_] = st.transactions ++ [tx]
              rw [htx]
            · exact ⟨_, rfl⟩
  · intro e st2 h
    cases auth with
    | none => exact (congrArg Prod.snd h).symm
    | some userId =>
      simp only [updateTransaction] at h
      cases hu : findUserByClerkId st userId with
      | none => simp only [hu] at h; exact (congrArg Prod.snd h).symm
      | some user =>
        simp only [hu] at h
        cases ho : findTransaction st txId user.id with
        | none => simp only [ho] at h; exact (congrArg Prod.snd h).symm
        | some orig =>
          simp only [ho] at h
          exact Except.noConfusion (congrArg Prod.fst h)
  · intro tx st2 h
    cases auth with
    | none => exact Except.noConfusion (congrArg Prod.fst h)
    | some userId =>
      simp only [updateTransaction] at h
      cases hu : findUserByClerkId st userId with
      | none => simp only [hu] at h; exact Except.noConfusion (congrArg Prod.fst h)
      | some user =>
        simp only [hu] at h
        cases ho : findTransaction st txId user.id with
        | none => simp only [ho] at h; exact Except.noConfusion (congrArg Prod.fst h)
        | some orig =>
          simp only [ho] at h
          simp only [Prod.mk.injEq, Except.ok.injEq] at h
          obtain ⟨htx, hst⟩ := h
          subst hst
          constructor
          · refine ⟨user.id, ?_⟩
            show st.transactions.map _ = st.transactions.map _
            rw [htx]
          · exact ⟨_, rfl⟩

/-- C3 counterexample: a negative amount is not rejected — the create
succeeds and mutates the balance (an EXPENSE of -50.00 on the 500.00
account leaves 550.00), where the claim demands a validation failure
with no mutation. -/
theorem createTransaction_accepts_negative_amount :
    (createTransaction (some "clerk1") false false demoDataNegative demoStore).1
      = Except.ok demoTxNeg
    ∧ accountBalance
        (createTransaction (some "clerk1") false false demoDataNegative demoStore).2 10
      = some 550
    ∧ demoDataNegative.amount < 0 := by
  have h : createTransaction (some "clerk1") false false demoDataNegative demoStore
      = (Except.ok demoTxNeg, demoStoreNeg) := by
    norm_num [createTransaction, demoStore, demoTxNeg, demoStoreNeg, demoUser, demoAccount,
      demoDataNegative, findUserByClerkId, findAccount, setBalanceList, nextRecurringOf]
  refine ⟨by rw [h], ?_, by norm_num [demoDataNegative]⟩
  rw [h]
  norm_num [accountBalance, demoStoreNeg]

/-- C3 witness: the successful demo create appends exactly the new row
to the transaction table. -/
theorem mutation_atomicity_witness :
    (createTransaction (some "clerk1") false false demoDataExpense50 demoStore).2.transactions
      = demoStore.transactions ++ [demoTx0] := by
  have h : createTransaction (some "clerk1") false false demoDataExpense50 demoStore
      = (Except.ok demoTx0, demoStore1) := by
    norm_num [createTransaction, demoStore, demoTx0, demoStore1, demoUser, demoAccount,
      demoDataExpense50, findUserByClerkId, findAccount, setBalanceList, nextRecurringOf]
  have hpart :=
    ((mutation_atomicity (some "clerk1") false false 0 demoDataExpense50 demoStore).2.1
      demoTx0 demoStore1 h).1
  rw [h]
  exact hpart

/-- C4: `calculateNextRecurringDate` evaluated at the claim's inputs —
DAILY and WEEKLY return the date unchanged (the switch has no case for
them), MONTHLY from Jan 31, 2023 gives Mar 3 (ECMAScript overflow, no
clamp to Feb 28), and YEARLY from Feb 29, 2024 gives Mar 1, 2025 (no
clamp to Feb 28). -/
theorem calculateNextRecurringDate_eval :
    calculateNextRecurringDate ⟨2024, 0, 15⟩ RecInterval.DAILY = ⟨2024, 0, 15⟩
    ∧ calculateNextRecurringDate ⟨2024, 0, 15⟩ RecInterval.WEEKLY = ⟨2024, 0, 15⟩
    ∧ calculateNextRecurringDate ⟨2023, 0, 31⟩ RecInterval.MONTHLY = ⟨2023, 2, 3⟩
    ∧ calculateNextRecurringDate ⟨2024, 1, 29⟩ RecInterval.YEARLY = ⟨2025, 2, 1⟩ := by
  decide

/-- C5: creating a DAILY recurring transaction stores a
`nextRecurringDate` equal to the transaction's own date — present (the
if-and-only-if presence holds) but not strictly after it. -/
theorem createTransaction_daily_next_equals_date :
    (createTransaction (some "clerk1") false false demoDataDaily demoStore).1
      = Except.ok demoTxDaily
    ∧ demoTxDaily.isRecurring = true
    ∧ demoTxDaily.recurringInterval = some RecInterval.DAILY
    ∧ demoTxDaily.nextRecurringDate = some demoTxDaily.date
    ∧ SDate.before demoTxDaily.date demoTxDaily.date = false := by
  refine ⟨rfl, by decide, by decide, by decide, by decide⟩

/-- C8: `scanReceipt` has no size gate — the external model is
consulted on every run, in particular for a payload one byte above
5 MB (5242881 bytes). -/
theorem scanReceipt_no_size_gate :
    (∀ (f : ScanFile) (resp : String), (scanReceipt f resp).modelCalled = true)
    ∧ (scanReceipt ⟨5242881⟩ "\x7b\x7d").modelCalled = true
    ∧ 5 * 1024 * 1024 < 5242881 := by
  refine ⟨?_, rfl, by norm_num⟩
  intro f resp
  simp only [scanReceipt]
  split
  · rfl
  · split <;> rfl

theorem strToNumberJs_1250 : strToNumberJs "12.50" = some ((25 : ℚ) / 2) := by
  have h1 : trimChars "12.50".toList = ['1', '2', '.', '5', '0'] := by decide
  have h2 : parseNumParts ['1', '2', '.', '5', '0']
      = some ((false, ['1', '2'], ['5', '0']), []) := by decide
  have h3 : digitsVal ['1', '2'] = 12 := by decide
  have h4 : digitsVal ['5', '0'] = 50 := by decide
  simp only [strToNumberJs, h1, List.isEmpty_cons, Bool.false_eq_true, if_false,
    parseNumberJ, h2, Option.map_some', List.isEmpty_nil, if_true, numValue, h3, h4]
  norm_num

/-- C6 counterexample: a model response that is not JSON makes
`scanReceipt` raise "Failed to scan receipt" instead of returning the
empty result. -/
theorem scanReceipt_parse_failure_raises :
    (scanReceipt ⟨100⟩ "not json").out = ScanOut.failure "Failed to scan receipt"
    ∧ (scanReceipt ⟨100⟩ "not json").out ≠ ScanOut.empty := by
  refine ⟨by decide, by decide⟩

/-- C6 (amended): `scanReceipt` strips code fences and trims; a
response whose cleaned text is empty or the literal empty object yields
the empty result (in particular the fenced empty object), while a
cleaned text that fails to parse as JSON raises an error. -/
theorem scanReceipt_fence_empty_behavior (raw : String) (f : ScanFile) :
    ((cleanRaw raw = "" ∨ cleanRaw raw = "\x7b\x7d") → (scanReceipt f raw).out = ScanOut.empty)
    ∧ (cleanRaw raw ≠ "" → cleanRaw raw ≠ "\x7b\x7d" → jsonParse (cleanRaw raw) = none →
        (scanReceipt f raw).out = ScanOut.failure "Failed to scan receipt")
    ∧ (scanReceipt f "```json\n\x7b\x7d\n```").out = ScanOut.empty := by
  refine ⟨?_, ?_, ?_⟩
  · intro h
    simp only [scanReceipt]
    rw [if_pos h]
  · intro h1 h2 h3
    simp only [scanReceipt]
    rw [if_neg (not_or.mpr ⟨h1, h2⟩)]
    simp only [h3]
  · simp only [scanReceipt]
    rw [if_pos (by decide :
      cleanRaw "```json\n\x7b\x7d\n```" = "" ∨ cleanRaw "```json\n\x7b\x7d\n```" = "\x7b\x7d")]

/-- C6 witness: the fenced empty object yields the empty result, while
the unparsable response "x" raises. -/
theorem scanReceipt_fence_empty_behavior_witness :
    (scanReceipt ⟨7⟩ "x").out = ScanOut.failure "Failed to scan receipt"
    ∧ (scanReceipt ⟨7⟩ "```json\n\x7b\x7d\n```").out = ScanOut.empty :=
  ⟨(scanReceipt_fence_empty_behavior "x" ⟨7⟩).2.1 (by decide) (by decide) (by decide),
   (scanReceipt_fence_empty_behavior "x" ⟨7⟩).2.2⟩

/-- C7 counterexample: the adapter does not coerce the category into
the fixed vocabulary — "zzz" is passed through, not replaced by
"other-expense" — and a negative extracted amount is kept negative, not
turned into a magnitude. -/
theorem scanReceipt_category_not_coerced :
    (scanReceipt ⟨100⟩ rawReceiptJson).out.resultCategory = some (JVal.jstr "zzz")
    ∧ JVal.jstr "zzz" ≠ JVal.jstr "other-expense"
    ∧ (normalizeReceipt [("amount", JVal.jnum (-5))]).amount = some (-5)
    ∧ ((-5 : ℚ) < 0) := by
  refine ⟨by decide, by decide, ?_, by norm_num⟩
  simp [normalizeReceipt, jsNumber, lookupJ]

/-- C7 (amended): for every parsed response the adapter keeps the
category string as-is (even outside the vocabulary), defaulting to
"other-expense" only when the field is absent or null; the amount is
the ECMAScript Number coercion with its sign preserved; the date field
is parsed as a calendar date; on the claim's own example the result is
amount 12.5, date 2024-01-15 and category "zzz". -/
theorem normalizeReceipt_normalization (obj : List (String × JVal)) :
    (lookupJ obj "category" = none →
        (normalizeReceipt obj).category = JVal.jstr "other-expense")
    ∧ (lookupJ obj "category" = some JVal.jnull →
        (normalizeReceipt obj).category = JVal.jstr "other-expense")
    ∧ (∀ s, lookupJ obj "category" = some (JVal.jstr s) →
        (normalizeReceipt obj).category = JVal.jstr s)
    ∧ (∀ q, lookupJ obj "amount" = some (JVal.jnum q) →
        (normalizeReceipt obj).amount = some q)
    ∧ (∀ dstr d, lookupJ obj "date" = some (JVal.jstr dstr) → dstr ≠ "" →
        parseDateStr dstr = some d → (normalizeReceipt obj).date = some d)
    ∧ (scanReceipt ⟨100⟩ rawReceiptJson).out.resultAmount = some (some ((25 : ℚ) / 2))
    ∧ (scanReceipt ⟨100⟩ rawReceiptJson).out.resultDate = some (some ⟨2024, 0, 15⟩)
    ∧ (scanReceipt ⟨100⟩ rawReceiptJson).out.resultCategory = some (JVal.jstr "zzz") := by
  have hclean : cleanRaw rawReceiptJson = rawReceiptJson := by decide
  have hcond : ¬(rawReceiptJson = "" ∨ rawReceiptJson = "\x7b\x7d") := by decide
  have hparse : jsonParse rawReceiptJson = some demoReceiptObj := by decide
  have hout : (scanReceipt ⟨100⟩ rawReceiptJson).out
      = ScanOut.result (normalizeReceipt demoReceiptObj) := by
    simp only [scanReceipt]
    rw [hclean, if_neg hcond]
    simp only [hparse]
  refine ⟨?_, ?_, ?_, ?_, ?_, ?_, ?_, ?_⟩
  · intro h; simp [normalizeReceipt, nullishDefault, h]
  · intro h; simp [normalizeReceipt, nullishDefault, h]
  · intro s h; simp [normalizeReceipt, nullishDefault, h]
  · intro q h; simp [normalizeReceipt, jsNumber, h]
  · intro dstr d h hne hp
    simp [normalizeReceipt, jsDateField, h, hne, hp]
  · rw [hout]
    have hl : lookupJ demoReceiptObj "amount" = some (JVal.jstr "12.50") := by decide
    simp only [ScanOut.resultAmount, normalizeReceipt, hl, jsNumber, strToNumberJs_1250]
  · rw [hout]
    have hl : lookupJ demoReceiptObj "date" = some (JVal.jstr "2024-01-15") := by decide
    have hd : parseDateStr "2024-01-15" = some ⟨2024, 0, 15⟩ := by decide
    simp only [ScanOut.resultDate, normalizeReceipt, hl, jsDateField]
    rw [if_neg (by decide : ¬("2024-01-15" = "")), hd]
  · rw [hout]
    have hl : lookupJ demoReceiptObj "category" = some (JVal.jstr "zzz") := by decide
    simp only [ScanOut.resultCategory, normalizeReceipt, hl, nullishDefault]

/-- C7 witness: a present category string is passed through unchanged. -/
theorem normalizeReceipt_normalization_witness :
    (normalizeReceipt [("category", JVal.jstr "zzz")]).category = JVal.jstr "zzz" :=
  (normalizeReceipt_normalization [("category", JVal.jstr "zzz")]).2.2.1 "zzz" (by decide)

/-- C10: when the identity provider reports no user, `checkUser`
returns null and writes nothing; when it reports a user, the upsert is
keyed by email — one call makes the email's row count `max 1 (old
count)`, and a second call for the same email adds no further row. -/
theorem checkUser_null_and_upsert :
    (∀ rows, checkUser none rows = .ok (none, rows))
    ∧ (∀ (u : ClerkUser) (e0 : ClerkEmail) rows row2 rows2,
        u.emailAddresses.head? = some e0 →
        checkUser (some u) rows = .ok (row2, rows2) →
        countEmail rows2 e0.emailAddress = max 1 (countEmail rows e0.emailAddress))
    ∧ (∀ (u : ClerkUser) (e0 : ClerkEmail) rows row2 rows2 row3 rows3,
        u.emailAddresses.head? = some e0 →
        checkUser (some u) rows = .ok (row2, rows2) →
        checkUser (some u) rows2 = .ok (row3, rows3) →
        countEmail rows3 e0.emailAddress = countEmail rows2 e0.emailAddress) := by
  have key : ∀ (u : ClerkUser) (e0 : ClerkEmail) rows row2 rows2,
      u.emailAddresses.head? = some e0 →
      checkUser (some u) rows = .ok (row2, rows2) →
      countEmail rows2 e0.emailAddress = max 1 (countEmail rows e0.emailAddress) := by
    intro u e0 rows row2 rows2 hhead h
    simp only [checkUser, hhead] at h
    simp only [Except.ok.injEq, Prod.mk.injEq] at h
    obtain ⟨hrow, hrows⟩ := h
    subst hrows
    exact countEmail_upsert rows e0.emailAddress _ _ (fun r => rfl) rfl
  refine ⟨fun rows => rfl, key, ?_⟩
  intro u e0 rows row2 rows2 row3 rows3 hhead h1 h2
  have k1 := key u e0 rows row2 rows2 hhead h1
  have k2 := key u e0 rows2 row3 rows3 hhead h2
  rw [k2, k1]
  omega

/-- C10 witness: the demo Clerk user inserts exactly one row into the
empty store, and the no-user call is the identity. -/
theorem checkUser_null_and_upsert_witness :
    checkUser none ([] : List UserRow) = .ok (none, [])
    ∧ countEmail [demoRow] "a@b.c" = max 1 (countEmail ([] : List UserRow) "a@b.c") := by
  have h : checkUser (some demoClerk) [] = .ok (some demoRow, [demoRow]) := by decide
  exact ⟨checkUser_null_and_upsert.1 [],
    checkUser_null_and_upsert.2.1 demoClerk ⟨"a@b.c"⟩ [] (some demoRow) [demoRow] rfl h⟩
